import Mathlib

/-!
A shallow embedding of the Svelte prettier plugin (`src/plugin.js`) and a
verification of the specification's claims about it.

The embedding models:
* the base64 codec (`btoa` / `atob`) used by the embedded-region snip/unsnip
  transforms (plugin.js lines 196-231);
* the prettier document IR fragment the plugin builds (text, concat, fill,
  group, indent, dedent, line variants, break-parent);
* the Svelte AST node kinds the claims are about (Fragment, Text, the
  Element family, Attribute, MustacheTag, AttributeShorthand, the
  control-flow blocks, Comment, Script, Style) together with the whole
  whitespace/child-flattening machinery (`printChildren`, `trim`,
  `extractOutermostNewlines`, `splitTextToDocs`, ...) and the per-node
  printer `print` (plugin.js lines 494-949), including the module-global
  `ignoreNext` flag, threaded explicitly as state;
* the root-level printing with its sort-order dispatch (plugin.js 499-536).

Directive node kinds (EventHandler, Binding, Class, Let, Transition, Action,
Animation, Spread, DebugTag, Ref, Options, Body, RawMustacheTag) are not
exercised by any claim and are omitted from the node type; a node kind
without a printing rule (for instance `Style`) is modelled, as in the
source, as a fatal "unknown node type" error.

Recursive functions over the node tree and the document tree take an
explicit fuel parameter so that every definition is executable and
kernel-reducible; fuel exhaustion is a distinguished error that no claim's
statement ever confuses with a genuine result.

JS strings are modelled as Lean strings over their code units; the string
helpers used by the plugin (`split`, `trim`, `slice`, regex tests) are
re-implemented over character lists so that they evaluate by `rfl`.
-/

/-! ## JS string helpers -/

/-- The characters of JS `\s` (ASCII part): space, tab, LF, VT, FF, CR.
(plugin.js uses `\s` in several regexes and `String.prototype.trim`.) -/
def isJsSpace (c : Char) : Bool :=
  c = ' ' || c = '\t' || c = '\n' || c = Char.ofNat 11 || c = Char.ofNat 12 || c = '\r'

/-- Model of JS `String.prototype.trim` (ASCII whitespace). -/
def jsTrim (s : String) : String :=
  String.mk (((s.toList.dropWhile isJsSpace).reverse.dropWhile isJsSpace).reverse)

/-- Model of JS `String.prototype.slice(a, b)` for `0 ≤ a ≤ b`. -/
def jsSlice (s : String) (a b : Nat) : String :=
  String.mk ((s.toList.drop a).take (b - a))

/-- `l.isPrefixOfL l'` over characters, kernel-reducible. -/
def isPrefixL : List Char → List Char → Bool
  | [], _ => true
  | _ :: _, [] => false
  | c :: cs, d :: ds => c = d && isPrefixL cs ds

/-- Does `pat` occur as a substring of `s`?  Model of JS `String.includes`. -/
def listIncludes (pat : List Char) : List Char → Bool
  | [] => isPrefixL pat []
  | c :: cs => isPrefixL pat (c :: cs) || listIncludes pat cs

def jsIncludes (s pat : String) : Bool :=
  listIncludes pat.toList s.toList

/-- Split a character list at every occurrence of the single character `sep`;
model of JS `String.split("\n")` (non-regex separator, used at
plugin.js:545). -/
def splitOnChar (sep : Char) : List Char → List String
  | [] => [""]
  | c :: cs =>
    let r := splitOnChar sep cs
    if c = sep then "" :: r
    else
      match r with
      | s :: rest => (String.mk [c] ++ s) :: rest
      | [] => [String.mk [c]]

def jsSplitNl (s : String) : List String := splitOnChar '\n' s.toList

/-! ## The base64 codec (`btoa` / `atob`), plugin.js lines 196-231

The snip transform (plugin.js:197) stores a region's body as
`btoa(content)` inside the marker attribute
`✂prettier:content✂="..."`; both decode paths — `unsnipContent`
(plugin.js:214) and `getSnippedContent` (plugin.js:221) — apply `atob` to
the stored value.  `btoa`/`atob` operate on strings of Latin-1 code units,
i.e. bytes; we model them on lists of byte values. -/

/-- The base64 alphabet as character codes: `A`-`Z`, `a`-`z`, `0`-`9`, `+`, `/`. -/
def b64Chars : List Nat :=
  [65, 66, 67, 68, 69, 70, 71, 72, 73, 74, 75, 76, 77, 78, 79, 80, 81, 82,
   83, 84, 85, 86, 87, 88, 89, 90,
   97, 98, 99, 100, 101, 102, 103, 104, 105, 106, 107, 108, 109, 110, 111,
   112, 113, 114, 115, 116, 117, 118, 119, 120, 121, 122,
   48, 49, 50, 51, 52, 53, 54, 55, 56, 57, 43, 47]

/-- 6-bit value → base64 character code. -/
def b64Char (v : Nat) : Nat := b64Chars.getD v 0

/-- base64 character code → 6-bit value (inverse of `b64Char` on the alphabet). -/
def b64Value (c : Nat) : Nat := b64Chars.findIdx (fun x => x == c)

/-- The code of the padding character `=`. -/
def b64Pad : Nat := 61

/-- Model of the browser `btoa` on byte lists: 3 bytes → 4 alphabet
characters, with `=` padding for a 1- or 2-byte tail. -/
def btoa : List Nat → List Nat
  | [] => []
  | [a] =>
    [b64Char (a / 4), b64Char (a % 4 * 16), b64Pad, b64Pad]
  | [a, b] =>
    [b64Char (a / 4), b64Char (a % 4 * 16 + b / 16), b64Char (b % 16 * 4), b64Pad]
  | a :: b :: c :: rest =>
    b64Char (a / 4) :: b64Char (a % 4 * 16 + b / 16) ::
      b64Char (b % 16 * 4 + c / 64) :: b64Char (c % 64) :: btoa rest

/-- Model of the browser `atob` on `btoa` output: 4 characters → 3 bytes,
with the padding cases producing 1 or 2 bytes. -/
def atob : List Nat → List Nat
  | w :: x :: y :: z :: rest =>
    if z = b64Pad then
      if y = b64Pad then
        [b64Value w * 4 + b64Value x / 16]
      else
        [b64Value w * 4 + b64Value x / 16,
         b64Value x % 16 * 16 + b64Value y / 4]
    else
      (b64Value w * 4 + b64Value x / 16) ::
        (b64Value x % 16 * 16 + b64Value y / 4) ::
        (b64Value y % 4 * 64 + b64Value z) :: atob rest
  | _ => []

/-- String versions over code units (the form the plugin actually calls). -/
def btoaStr (s : String) : String :=
  String.mk ((btoa (s.toList.map Char.toNat)).map Char.ofNat)

def atobStr (s : String) : String :=
  String.mk ((atob (s.toList.map Char.toNat)).map Char.ofNat)

theorem b64Value_b64Char : ∀ v, v < 64 → b64Value (b64Char v) = v := by decide

theorem b64Char_ne_pad : ∀ v, v < 64 → b64Char v ≠ b64Pad := by decide

/-! ## The document IR (prettier's doc builders, as used by the plugin) -/

/-- The line variants of the prettier doc IR.  `normal` is the builder
`line` (a space when flat), `soft` is `softline` (nothing when flat),
`hard` is a line with `hard: true` (always breaks), `literal` is a hard
line that additionally suppresses re-indentation. -/
inductive LineKind where
  | normal
  | soft
  | hard
  | literal
deriving DecidableEq

/-- The prettier document values the plugin builds.  `text` covers JS plain
strings used as docs; `line k keep` is a line object with variant `k` and
`keepIfLonely` flag `keep`; `embedFormat kind input` stands for the opaque
result of dispatching `input` to an external sublanguage formatter (the two
`prettier.format` calls of the `Script` case, plugin.js:917-926). -/
inductive Doc where
  | text : String → Doc
  | concat : List Doc → Doc
  | fill : List Doc → Doc
  | group : Doc → Doc
  | indent : Doc → Doc
  | dedent : Doc → Doc
  | line : LineKind → Bool → Doc
  | breakParent : Doc
  | embedFormat : String → String → Doc

/-- The builder `line`. -/
def lineD : Doc := .line .normal false
/-- The builder `softline`. -/
def softlineD : Doc := .line .soft false
/-- The builder `hardline` (a hard line plus a break-parent, as in prettier). -/
def hardlineD : Doc := .concat [.line .hard false, .breakParent]
/-- The builder `literalline` (a literal hard line plus a break-parent). -/
def literallineD : Doc := .concat [.line .literal false, .breakParent]
/-- `keepIfLonelyLine` (plugin.js:490): a copy of `line` with
`keepIfLonely: true` and `hard: true`. -/
def keepIfLonelyLineD : Doc := .line .hard true

/-- `isLine` (plugin.js:386): is the doc a line object? -/
def isLineD : Doc → Bool
  | .line _ _ => true
  | _ => false

/-- `isLineDiscardedIfLonely` (plugin.js:389). -/
def isLineDiscardedIfLonely : Doc → Bool
  | .line _ keep => !keep
  | _ => false

/-- JS truthiness of a doc value: the empty string is falsy, everything
else the plugin builds is truthy. -/
def docTruthy : Doc → Bool
  | .text s => !(s.toList.isEmpty)
  | _ => true

/-- `getParts` (plugin.js:459): the parts of a `fill` or `concat` doc. -/
def getParts : Doc → Option (List Doc)
  | .fill parts => some parts
  | .concat parts => some parts
  | _ => none

/-- Rebuild a `fill`/`concat` doc with new parts (the source mutates
`doc.parts` in place; the embedding rebuilds the value). -/
def setParts : Doc → List Doc → Doc
  | .fill _, parts => .fill parts
  | .concat _, parts => .concat parts
  | d, _ => d

/-- `isEmptyDoc` / `isEmptyGroup` (plugin.js:395-414), fuelled. -/
def isEmptyDocF : Nat → Doc → Bool
  | 0, _ => false
  | f + 1, d =>
    match d with
    | .text s => s.toList.isEmpty
    | .line _ keep => !keep
    | .group x => isEmptyDocF f x
    | .indent x => isEmptyDocF f x
    | .dedent x => isEmptyDocF f x
    | .concat parts => parts.all (isEmptyDocF f)
    | .fill parts => parts.all (isEmptyDocF f)
    | .breakParent => false
    | .embedFormat _ _ => false

def isEmptyGroupF (f : Nat) (g : List Doc) : Bool := g.all (isEmptyDocF f)

/-- `findLastIndex` (plugin.js:467), returning `none` for -1. -/
def findLastIdx (p : Doc → Bool) (l : List Doc) : Option Nat :=
  match (l.reverse).findIdx? p with
  | some i => some (l.length - 1 - i)
  | none => none

/-- `trimLeft` (plugin.js:428), fuelled and purely functional: returns the
removed leading whitespace docs (`none` models the JS `undefined` return)
together with the trimmed list.  Where the source splices the nested
`parts` array of the first doc in place, the embedding rebuilds that doc. -/
def trimLeftF (isW : Doc → Bool) : Nat → List Doc → Option (List Doc) × List Doc
  | 0, group => (none, group)
  | f + 1, group =>
    match group.findIdx? (fun d => !isW d) with
    | some 0 =>
      match group with
      | [] => (none, [])
      | g0 :: rest =>
        match getParts g0 with
        | some parts =>
          let (removed, parts') := trimLeftF isW f parts
          (removed, setParts g0 parts' :: rest)
        | none => (none, group)
    | some i => (some (group.take i), group.drop i)
    | none =>
      match group with
      | [] =>
        -- firstNonWhitespace stays -1; `getParts(group[0])` on `undefined`
        -- yields `undefined`, so nothing is removed
        (none, [])
      | _ => (some group, [])

/-- `trimRight` (plugin.js:446), fuelled, same conventions as `trimLeftF`. -/
def trimRightF (isW : Doc → Bool) : Nat → List Doc → Option (List Doc) × List Doc
  | 0, group => (none, group)
  | f + 1, group =>
    match group with
    | [] => (none, [])
    | _ =>
      match findLastIdx (fun d => !isW d) group with
      | none =>
        -- findLastIndex returned -1 < length - 1: everything is removed
        (some group, [])
      | some i =>
        if i + 1 < group.length then
          (some (group.drop (i + 1)), group.take (i + 1))
        else
          match group.getLast? with
          | some last =>
            match getParts last with
            | some parts =>
              let (removed, parts') := trimRightF isW f parts
              (removed, group.dropLast ++ [setParts last parts'])
            | none => (none, group)
          | none => (none, group)

/-- `trim` (plugin.js:419): trim both ends, return the trimmed list. -/
def trimBothF (isW : Doc → Bool) (f : Nat) (docs : List Doc) : List Doc :=
  (trimRightF isW f (trimLeftF isW f docs).2).2

/-- `dedentFinalNewline` (plugin.js:1087): pull a trailing newline out and
wrap it in a `dedent`. -/
def dedentFinalNewlineF (f : Nat) (docs : List Doc) : List Doc :=
  match trimRightF isLineD f docs with
  | (some removed, rest) =>
    rest ++ [Doc.dedent (removed.getLast?.getD (.text ""))]
  | (none, rest) => rest

/-- `extractOutermostNewlines` (plugin.js:1098). -/
def extractOutermostNewlinesF (f : Nat) (docs : List Doc) : List Doc :=
  let (leading, docs1) := trimLeftF isLineD f docs
  let (trailing, docs2) := trimRightF isLineD f docs1
  (leading.getD []) ++
    (if isEmptyGroupF f docs2 then [] else [Doc.fill docs2]) ++
    (trailing.getD [])

/-- Does the document contain a forced break (a hard or literal line, or a
break-parent), i.e. can it never render flat?  Fuelled doc traversal used
by concrete counterexamples and witnesses. -/
def containsForcedBreakF : Nat → Doc → Bool
  | 0, _ => false
  | f + 1, d =>
    match d with
    | .breakParent => true
    | .line .hard _ => true
    | .line .literal _ => true
    | .line _ _ => false
    | .text _ => false
    | .embedFormat _ _ => false
    | .group x => containsForcedBreakF f x
    | .indent x => containsForcedBreakF f x
    | .dedent x => containsForcedBreakF f x
    | .concat parts => parts.any (containsForcedBreakF f)
    | .fill parts => parts.any (containsForcedBreakF f)

/-- Does the document contain an `embedFormat` node, i.e. was any content
dispatched to an external sublanguage formatter? -/
def containsEmbedFormatF : Nat → Doc → Bool
  | 0, _ => false
  | f + 1, d =>
    match d with
    | .embedFormat _ _ => true
    | .group x => containsEmbedFormatF f x
    | .indent x => containsEmbedFormatF f x
    | .dedent x => containsEmbedFormatF f x
    | .concat parts => parts.any (containsEmbedFormatF f)
    | .fill parts => parts.any (containsEmbedFormatF f)
    | _ => false

/-- Does the document contain `.text s` as a part (used to state that a raw
body is reproduced verbatim inside a printed element)? -/
def containsTextF : Nat → String → Doc → Bool
  | 0, _, _ => false
  | f + 1, s, d =>
    match d with
    | .text t => t = s
    | .group x => containsTextF f s x
    | .indent x => containsTextF f s x
    | .dedent x => containsTextF f s x
    | .concat parts => parts.any (containsTextF f s)
    | .fill parts => parts.any (containsTextF f s)
    | _ => false

/-! ## The Svelte AST model (the node kinds the claims are about) -/

/-- The element-family node types handled by one `print` case
(plugin.js:586-591). -/
inductive ETag where
  | element
  | inlineComponent
  | slot
  | window
  | head
  | title
deriving DecidableEq

/-- Embedded JS expression nodes, as far as the plugin's own printer
handles them (`Identifier`, `Literal`, `BinaryExpression`,
`ConditionalExpression` cases of `print`, plugin.js:656, 927-945; any
other expression kind reaches the final `throw`). -/
inductive JSExpr where
  | ident : String → JSExpr
  | literal : String → JSExpr
  | binary : JSExpr → String → JSExpr → JSExpr
  | conditional : JSExpr → JSExpr → JSExpr → JSExpr
  | unknown : String → JSExpr
deriving DecidableEq

/-- JS destructuring patterns as consumed by `expandNode`
(plugin.js:1115-1150).  `str` models the pre-v3.20 plain-string form. -/
inductive JSPattern where
  | str : String → JSPattern
  | ident : String → JSPattern
  | literal : String → JSPattern
  | arrayPattern : List JSPattern → JSPattern
  | assignmentPattern : JSPattern → JSPattern → JSPattern
  | objectPattern : List JSPattern → JSPattern
  | property : JSPattern → JSPattern → JSPattern
  | restElement : String → JSPattern
  | unknown : String → JSPattern

/-- The AST nodes.  Every node carries its half-open source range
`[start, stop)`.  An attribute value is `none` for the JS literal `true`
(a bare attribute) and otherwise the list of value nodes.  An await
block's `pending`/`then`/`catch` slots are themselves nodes
(`pendingBlock`/`thenBlock`/`catchBlock`). -/
inductive Node where
  | fragment : List Node → Nat → Nat → Node
  | text : String → String → Nat → Nat → Node      -- raw, data
  | element : ETag → String → Option JSExpr → List Node → List Node → Nat → Nat → Node
      -- tag kind, name, `this` expression (InlineComponent), attributes, children
  | attribute : String → Option (List Node) → Nat → Nat → Node
  | mustacheTag : JSExpr → Nat → Nat → Node
  | attributeShorthand : JSExpr → Nat → Nat → Node
  | ifBlock : JSExpr → List Node → Option Node → Nat → Nat → Node
  | elseBlock : List Node → Nat → Nat → Node
  | eachBlock : JSExpr → JSExpr → Option String → Option JSExpr →
      List Node → Option Node → Nat → Nat → Node
      -- expression, context, index, key, children, else
  | awaitBlock : JSExpr → Option JSPattern → Option JSPattern →
      Node → Node → Node → Nat → Nat → Node
      -- expression, value, error, pending, then, catch
  | pendingBlock : List Node → Nat → Nat → Node
  | thenBlock : List Node → Nat → Nat → Node
  | catchBlock : List Node → Nat → Nat → Node
  | comment : String → Nat → Nat → Node            -- data
  | script : List Node → Nat → Nat → Node          -- attributes
  | style : Nat → Nat → Node

/-- The `node.type` string, used by the final `throw` message. -/
def nodeTypeName : Node → String
  | .fragment .. => "Fragment"
  | .text .. => "Text"
  | .element t .. =>
    match t with
    | .element => "Element"
    | .inlineComponent => "InlineComponent"
    | .slot => "Slot"
    | .window => "Window"
    | .head => "Head"
    | .title => "Title"
  | .attribute .. => "Attribute"
  | .mustacheTag .. => "MustacheTag"
  | .attributeShorthand .. => "AttributeShorthand"
  | .ifBlock .. => "IfBlock"
  | .elseBlock .. => "ElseBlock"
  | .eachBlock .. => "EachBlock"
  | .awaitBlock .. => "AwaitBlock"
  | .pendingBlock .. => "PendingBlock"
  | .thenBlock .. => "ThenBlock"
  | .catchBlock .. => "CatchBlock"
  | .comment .. => "Comment"
  | .script .. => "Script"
  | .style .. => "Style"

def nodeStart : Node → Nat
  | .fragment _ s _ => s
  | .text _ _ s _ => s
  | .element _ _ _ _ _ s _ => s
  | .attribute _ _ s _ => s
  | .mustacheTag _ s _ => s
  | .attributeShorthand _ s _ => s
  | .ifBlock _ _ _ s _ => s
  | .elseBlock _ s _ => s
  | .eachBlock _ _ _ _ _ _ s _ => s
  | .awaitBlock _ _ _ _ _ _ s _ => s
  | .pendingBlock _ s _ => s
  | .thenBlock _ s _ => s
  | .catchBlock _ s _ => s
  | .comment _ s _ => s
  | .script _ s _ => s
  | .style s _ => s

def nodeStop : Node → Nat
  | .fragment _ _ e => e
  | .text _ _ _ e => e
  | .element _ _ _ _ _ _ e => e
  | .attribute _ _ _ e => e
  | .mustacheTag _ _ e => e
  | .attributeShorthand _ _ e => e
  | .ifBlock _ _ _ _ e => e
  | .elseBlock _ _ e => e
  | .eachBlock _ _ _ _ _ _ _ e => e
  | .awaitBlock _ _ _ _ _ _ _ e => e
  | .pendingBlock _ _ e => e
  | .thenBlock _ _ e => e
  | .catchBlock _ _ e => e
  | .comment _ _ e => e
  | .script _ _ e => e
  | .style _ e => e

/-- Is the node a `Text` node? -/
def isTextN : Node → Bool
  | .text .. => true
  | _ => false

/-- `node.raw || node.data` (JS falls through on the empty string). -/
def rawOrData : Node → String
  | .text raw dat _ _ => if raw.toList.isEmpty then dat else raw
  | _ => ""

/-- The `children` property: `some` exactly for the node kinds that carry a
child list (`isNodeWithChildren`, plugin.js:283). -/
def getChildrenOpt : Node → Option (List Node)
  | .fragment children _ _ => some children
  | .element _ _ _ _ children _ _ => some children
  | .ifBlock _ children _ _ _ => some children
  | .elseBlock children _ _ => some children
  | .eachBlock _ _ _ _ children _ _ _ => some children
  | .pendingBlock children _ _ => some children
  | .thenBlock children _ _ => some children
  | .catchBlock children _ _ => some children
  | _ => none

/-- `getChildren` (plugin.js:286). -/
def getChildren (n : Node) : List Node := (getChildrenOpt n).getD []

/-! ## Tag tables & option surface (plugin.js:10-190) -/

/-- `selfClosingTags` (plugin.js:10). -/
def selfClosingTags : List String :=
  ["area", "base", "br", "col", "embed", "hr", "img", "input", "link",
   "meta", "param", "source", "track", "wbr"]

/-- `inlineElements` (plugin.js:27). -/
def inlineElements : List String :=
  ["a", "abbr", "audio", "b", "bdi", "bdo", "br", "button", "canvas",
   "cite", "code", "data", "datalist", "del", "dfn", "em", "embed", "i",
   "iframe", "img", "input", "ins", "kbd", "label", "map", "mark", "meter",
   "noscript", "object", "output", "picture", "progress", "q", "ruby", "s",
   "samp", "select", "slot", "small", "span", "strong", "sub", "sup",
   "svg", "template", "textarea", "time", "u", "var", "video", "wbr"]

/-- `formattableAttributes` (plugin.js:83). -/
def formattableAttributes : List String := ["class"]

/-- `unsupportedLanguages` (plugin.js:233). -/
def unsupportedLanguages : List String :=
  ["coffee", "coffeescript", "pug", "styl", "stylus", "sass"]

/-- `snippedTagContentAttribute` (plugin.js:196). -/
def snippedTagContentAttribute : String := "✂prettier:content✂"

/-- One part of the `svelteSortOrder` option (`parseSortOrder`,
plugin.js:192, applied at plugin.js:533). -/
inductive SortPart where
  | scripts
  | styles
  | markup
deriving DecidableEq

/-- The option surface the printer consults.  `svelteSortOrder` is stored
already split by `parseSortOrder`. -/
structure Ctx where
  originalText : String := ""
  svelteStrictMode : Bool := false
  svelteAllowShorthand : Bool := true
  svelteBracketNewLine : Bool := false
  svelteSortOrder : List SortPart := [.scripts, .styles, .markup]

/-- Printer failure: the `throw new Error("unknown node type: ...")` of
`print` and `expandNode`, plus the distinguished fuel-exhaustion error of
the embedding. -/
inductive PErr where
  | unknownNodeType : String → PErr
  | outOfFuel : PErr
deriving DecidableEq

/-! ## Node predicates (plugin.js:241-384) -/

/-- `isInlineElement` (plugin.js:241). -/
def isInlineElement : Node → Bool
  | .element .element name _ _ _ _ _ => inlineElements.contains name
  | _ => false

/-- `isWhitespaceChar` (plugin.js:244): one of space, tab, LF, CR. -/
def isWhitespaceChar (c : Char) : Bool :=
  c = ' ' || c = '\t' || c = '\n' || c = '\r'

/-- `canBreakAfter` (plugin.js:247).  For a `Text` node the source indexes
`node.raw` directly; an empty `raw` yields `undefined`, whose `indexOf`
lookup is -1, i.e. `false`. -/
def canBreakAfter (n : Node) : Bool :=
  match n with
  | .text raw _ _ _ =>
    match raw.toList.getLast? with
    | some c => isWhitespaceChar c
    | none => false
  | .element .element _ _ _ _ _ _ => !isInlineElement n
  | .element _ _ _ _ _ _ _ => true
  | _ => true

/-- `canBreakBefore` (plugin.js:257). -/
def canBreakBefore (n : Node) : Bool :=
  match n with
  | .text raw _ _ _ =>
    match raw.toList.head? with
    | some c => isWhitespaceChar c
    | none => false
  | .element .element _ _ _ _ _ _ => !isInlineElement n
  | .element _ _ _ _ _ _ _ => true
  | _ => true

/-- `isInlineNode` (plugin.js:267). -/
def isInlineNode (n : Node) : Bool :=
  match n with
  | .text .. =>
    let t := rawOrData n
    let isAllWhitespace := (jsTrim t).toList.isEmpty
    !isAllWhitespace || t.toList.isEmpty
  | .mustacheTag .. => true
  | .eachBlock .. => true
  | .ifBlock .. => true
  | .element .element _ _ _ _ _ _ => isInlineElement n
  | .element _ _ _ _ _ _ _ => false
  | _ => false

/-- `isEmptyNode` (plugin.js:311): a whitespace-only `Text` node. -/
def isEmptyNode (n : Node) : Bool :=
  match n with
  | .text .. => (jsTrim (rawOrData n)).toList.isEmpty
  | _ => false

/-- `isIgnoreDirective` (plugin.js:314). -/
def isIgnoreDirective (n : Node) : Bool :=
  match n with
  | .comment dat _ _ => jsTrim dat = "prettier-ignore"
  | _ => false

/-- `printRaw` (plugin.js:319), fuelled: concatenation of the `raw` text of
all leaf descendants. -/
def printRawF : Nat → Node → String
  | 0, _ => ""
  | f + 1, n =>
    match getChildrenOpt n with
    | some children => String.join (children.map (printRawF f))
    | none =>
      match n with
      | .text raw _ _ _ => raw
      | _ => ""

/-- `isTextNode` (plugin.js:327). -/
def isTextNodeN (n : Node) : Bool := isTextN n

/-- `getAttributeValue` (plugin.js:330): the value of the named attribute,
if the node carries an attribute list containing it. -/
def getAttributeValue (attributeName : String) (n : Node) : Option (Option (List Node)) :=
  let attributes : List Node :=
    match n with
    | .element _ _ _ attrs _ _ _ => attrs
    | .script attrs _ _ => attrs
    | _ => []
  match attributes.find? (fun a =>
    match a with
    | .attribute name _ _ _ => name = attributeName
    | _ => false) with
  | some (.attribute _ v _ _) => some v
  | _ => none

/-- `getAttributeTextValue` (plugin.js:337): the `data` of the first `Text`
node of the attribute's value (`null` when the attribute is missing or a
bare `true` attribute). -/
def getAttributeTextValue (attributeName : String) (n : Node) : Option String :=
  match getAttributeValue attributeName n with
  | some (some valueNodes) =>
    match valueNodes.find? isTextNodeN with
    | some (.text _ dat _ _) => some dat
    | _ => none
  | _ => none

/-- `getLangAttribute` (plugin.js:347): the `lang` attribute with a leading
`text/` stripped. -/
def getLangAttribute (n : Node) : Option String :=
  match getAttributeTextValue "lang" n with
  | some v =>
    some (if isPrefixL "text/".toList v.toList then String.mk (v.toList.drop 5) else v)
  | none => none

/-- `isNodeSupportedLanguage` (plugin.js:360). -/
def isNodeSupportedLanguage (n : Node) : Bool :=
  match getLangAttribute n with
  | some lang => !(unsupportedLanguages.contains lang)
  | none => true

/-- `isLoneMustacheTag` (plugin.js:364) on an attribute value. -/
def isLoneMustacheTag : Option (List Node) → Bool
  | some [.mustacheTag _ _ _] => true
  | _ => false

/-- `isAttributeShorthand` (plugin.js:367) on an attribute value. -/
def isAttributeShorthandV : Option (List Node) → Bool
  | some [.attributeShorthand _ _ _] => true
  | _ => false

/-- `isOrCanBeConvertedToShorthand` (plugin.js:375): the attribute is
`{a}` or `a={a}`. -/
def isOrCanBeConvertedToShorthand (n : Node) : Bool :=
  match n with
  | .attribute name value _ _ =>
    if isAttributeShorthandV value then true
    else
      match value with
      | some [.mustacheTag (.ident exprName) _ _] => exprName = name
      | _ => false
  | _ => false

/-- `isPreTagContent` (plugin.js:92) over the ancestry stack (the stack
includes the node currently being printed, like prettier's `path.stack`):
some entry is a `<pre>` element or an attribute whose name is not on the
formattable allow-list. -/
def isPreStack (stack : List Node) : Bool :=
  stack.any (fun n =>
    match n with
    | .element .element name _ _ _ _ _ => name.toLower = "pre"
    | .attribute name _ _ _ => !(formattableAttributes.contains name)
    | _ => false)

/-- `getSnippedContent` (plugin.js:221): decode the marker attribute with
`atob`, or return the empty string.  (A present-but-empty encoding is falsy
in JS and also yields `""`, which coincides with decoding it.) -/
def getSnippedContent (n : Node) : String :=
  match getAttributeTextValue snippedTagContentAttribute n with
  | some encodedContent => atobStr encodedContent
  | none => ""

/-- `hasSnippedContent` (plugin.js:211). -/
def hasSnippedContent (t : String) : Bool :=
  jsIncludes t snippedTagContentAttribute

/-- Drop characters up to (but not including) the next `</`; models the
lazy `.*?(?=<\/)` of the unsnip regex. -/
def dropUntilCloseTag : List Char → List Char
  | [] => []
  | c :: cs => if isPrefixL ['<', '/'] (c :: cs) then c :: cs else dropUntilCloseTag cs

/-- One unsnip scan step, fuelled by the input length. -/
def unsnipAux : Nat → List Char → List Char
  | 0, l => l
  | _ + 1, [] => []
  | f + 1, c :: cs =>
    let markerPat := (snippedTagContentAttribute ++ "=\"").toList
    let trimmedL := (c :: cs).dropWhile isJsSpace
    if isPrefixL markerPat trimmedL then
      let afterEq := trimmedL.drop markerPat.length
      let enc := afterEq.takeWhile (fun d => d ≠ '"')
      let afterQuote := (afterEq.dropWhile (fun d => d ≠ '"')).drop 1
      let afterGt := if afterQuote.head? = some '>' then afterQuote.drop 1 else afterQuote
      '>' :: ((atobStr (String.mk enc)).toList ++ unsnipAux f (dropUntilCloseTag afterGt))
    else c :: unsnipAux f cs

/-- `unsnipContent` (plugin.js:214).  The source performs a global regex
replacement (`/(<\w+.*?)\s*✂prettier:content✂="(.*?)">.*?(?=<\/)/gi`); the
embedding models its behaviour on the well-formed snipped shapes the plugin
itself produces: at each occurrence of the marker attribute it drops the
attribute (and the whitespace before it), decodes the quoted base64 payload
with `atob`, and drops the placeholder body up to the following closing
tag.  No claim depends on this function. -/
def unsnipContent (t : String) : String :=
  String.mk (unsnipAux (t.toList.length + 1) t.toList)

/-- The regex test of the empty-`Text` case (plugin.js:573):
`/\n\r?\s*\n\r?/` holds iff the text has a line feed followed, after
optional whitespace, by another line feed. -/
def afterNlBlank : List Char → Bool
  | [] => false
  | c :: cs => if c = '\n' then true else if isJsSpace c then afterNlBlank cs else false

def hasDoubleNl : List Char → Bool
  | [] => false
  | c :: cs => (c = '\n' && afterNlBlank cs) || hasDoubleNl cs

/-! ## Text splitting (plugin.js:1068) -/

/-- The split class `[\t\n\f\r ]` of `splitTextToDocs`. -/
def isSplitWs (c : Char) : Bool :=
  c = '\t' || c = '\n' || c = Char.ofNat 12 || c = '\r' || c = ' '

/-- Model of JS `text.split(/[\t\n\f\r ]+/)`: maximal whitespace runs are
separators; boundary runs produce empty tokens. -/
def splitRuns : List Char → List String
  | [] => [""]
  | c :: cs =>
    let r := splitRuns cs
    if isSplitWs c then
      match cs with
      | c2 :: _ => if isSplitWs c2 then r else "" :: r
      | [] => "" :: r
    else
      match r with
      | s :: rest => (String.mk [c] ++ s) :: rest
      | [] => [String.mk [c]]

/-- Consume `[\t\f\r ]*` then a `\n`; one group of the boundary regexes of
`splitTextToDocs`. -/
def nlGroup (l : List Char) : Option (List Char) :=
  match l.dropWhile (fun c => c = '\t' || c = Char.ofNat 12 || c = '\r' || c = ' ') with
  | '\n' :: rest => some rest
  | _ => none

/-- `/^([\t\f\r ]*\n){2}/` -/
def startsTwoNl (l : List Char) : Bool :=
  match nlGroup l with
  | some r => (nlGroup r).isSome
  | none => false

/-- `/(\n[\t\f\r ]*){2}$/` (tested by matching the reversed pattern against
the reversed text) -/
def endsTwoNl (l : List Char) : Bool := startsTwoNl l.reverse

/-- `splitTextToDocs` (plugin.js:1068): split into words joined by `line`
docs, with a leading/trailing double newline turned into
`keepIfLonelyLine`. -/
def splitTextToDocs (text : String) : List Doc :=
  let docs0 :=
    (List.intersperse lineD ((splitRuns text.toList).map Doc.text)).filter
      (fun d =>
        match d with
        | .text s => !s.toList.isEmpty
        | _ => true)
  let docs1 := if startsTwoNl text.toList then docs0.set 0 keepIfLonelyLineD else docs0
  if endsTwoNl text.toList then docs1.set (docs1.length - 1) keepIfLonelyLineD else docs1

/-! ## Expression and pattern printing -/

/-- `node.key.name` of a pattern node (used by the `Property` case of
`expandNode`; `undefined` for a non-identifier key is modelled as `""`). -/
def patName : JSPattern → String
  | .ident name => name
  | _ => ""

/-- `expandNode` (plugin.js:1115), fuelled: render a destructuring pattern
back to source text.  `none` models the JS `null`. -/
def expandNodeF : Nat → Option JSPattern → Except PErr String
  | 0, _ => .error .outOfFuel
  | f + 1, node =>
    match node with
    | none => .ok ""
    | some p =>
      match p with
      | .str s => .ok (" " ++ s)
      | .arrayPattern elements => do
        let parts ← elements.mapM (fun el => expandNodeF f (some el))
        .ok (" [" ++ String.mk ((String.join (parts.intersperse ",")).toList.drop 1) ++ "]")
      | .assignmentPattern left right => do
        let l ← expandNodeF f (some left)
        let r ← expandNodeF f (some right)
        .ok (l ++ " =" ++ r)
      | .ident name => .ok (" " ++ name)
      | .literal raw => .ok (" " ++ raw)
      | .objectPattern properties => do
        let parts ← properties.mapM (fun pr => expandNodeF f (some pr))
        .ok (" \x7b" ++ String.join (parts.intersperse ",") ++ " \x7d")
      | .property key value =>
        match value with
        | .objectPattern _ => do
          let v ← expandNodeF f (some value)
          .ok (" " ++ patName key ++ ":" ++ v)
        | .ident vname =>
          if patName key ≠ vname then do
            let k ← expandNodeF f (some key)
            let v ← expandNodeF f (some value)
            .ok (k ++ ":" ++ v)
          else expandNodeF f (some value)
        | _ => expandNodeF f (some value)
      | .restElement argName => .ok (" ..." ++ argName)
      | .unknown ty => .error (.unknownNodeType ty)

/-- Expression printing.  `printJS` (plugin.js:1107) tags the expression
node and routes it back through `print`; with no `embed` function in this
plugin the expression is printed by `print`'s own `Identifier`,
`Literal`, `BinaryExpression` and `ConditionalExpression` cases
(plugin.js:656, 927-945), any other kind reaching the final `throw`.
(The `ignoreNext` flag is always `false` by the time an expression is
printed in every situation a claim covers, so the flag is not threaded
through expression printing.) -/
def printExpr : JSExpr → Except PErr Doc
  | .ident name => .ok (.text name)
  | .literal raw => .ok (.text (" " ++ raw))
  | .binary l op r => do
    let ld ← printExpr l
    let rd ← printExpr r
    .ok (.concat [ld, .text " ", .text op, rd])
  | .conditional t c a => do
    let td ← printExpr t
    let cd ← printExpr c
    let ad ← printExpr a
    .ok (.concat [td, .text " ? ", cd, .text " : ", ad])
  | .unknown ty => .error (.unknownNodeType ty)

/-! ## Sibling lookup and the ignore branch -/

/-- `getNextNode` (plugin.js:303): the sibling starting where this node
ends, looked up in the parent's child list.  (The only caller is the
`Comment` case, whose parent is always a proper node, never the AST
root.) -/
def getNextNodeOf (stack : List Node) (n : Node) : Option Node :=
  match stack.head? with
  | some parent => (getChildren parent).find? (fun c => nodeStart c = nodeStop n)
  | none => none

/-- The condition under which a node consumes the pending-ignore flag
(plugin.js:539): every node except a whitespace-only `Text` node. -/
def consumesIgnore (n : Node) : Bool :=
  !(isTextN n) || !(isEmptyNode n)

/-- The doc produced for an ignored node (plugin.js:541-548): the node's
original source slice with its internal newlines remapped to literal
lines. -/
def ignoredNodeDoc (ctx : Ctx) (n : Node) : Doc :=
  .concat (List.flatten
    ((jsSplitNl (jsSlice ctx.originalText (nodeStart n) (nodeStop n))).mapIdx
      (fun i o => if i = 0 then [Doc.text o] else [literallineD, Doc.text o])))

/-! ## The printChildren state machine (plugin.js:958-1042) -/

/-- The mutable locals of `printChildren`: the emitted docs and the index
of the last position a line break is legal after (`none` models -1). -/
structure PCState where
  childDocs : List Doc := []
  lastBreakIndex : Option Nat := none

/-- `linebreakPossible` (plugin.js:969): group everything since the last
legal break position into one `concat` so it cannot break internally. -/
def linebreakPossible (st : PCState) : PCState :=
  match st.lastBreakIndex with
  | some i =>
    if i + 1 < st.childDocs.length then
      { childDocs := st.childDocs.take i ++ [Doc.concat (st.childDocs.drop i)],
        lastBreakIndex := none }
    else { st with lastBreakIndex := none }
  | none => { st with lastBreakIndex := none }

/-- `outputChildDoc` (plugin.js:981).  `childDoc = none` models the JS
`null` of `lastChildDocProduced`; JS truthiness additionally treats the
empty string as absent where the source tests `childDoc` rather than
`childDoc != null`. -/
def outputChildDocPC (isPreformat : Bool) (childDoc : Option Doc) (fromNodes : List Node)
    (st : PCState) : PCState :=
  let truthy := match childDoc with | some d => docTruthy d | none => false
  let st :=
    if !isPreformat then
      let st1 :=
        if !truthy || (match fromNodes.head? with | some fn => canBreakBefore fn | none => false) then
          let st' := linebreakPossible st
          let lastChild := st'.childDocs.getLast?
          let pushSoft :=
            childDoc.isSome &&
            (match childDoc with | some d => !isLineDiscardedIfLonely d | none => false) &&
            (match lastChild with | some lc => !isLineD lc | none => false)
          if pushSoft then { st' with childDocs := st'.childDocs ++ [softlineD] } else st'
        else st
      if st1.lastBreakIndex.isNone && truthy &&
          !(match fromNodes.getLast? with | some ln => canBreakAfter ln | none => true) then
        { st1 with lastBreakIndex := some st1.childDocs.length }
      else st1
    else st
  match childDoc with
  | some d => if truthy then { st with childDocs := st.childDocs ++ [d] } else st
  | none => st

/-- `flush` (plugin.js:1018): emit the current inline group through
`extractOutermostNewlines`. -/
def flushPC (f : Nat) (isPre : Bool) (currentGroup : List (Doc × Node)) (st : PCState) :
    PCState :=
  let groupDocs := currentGroup.map Prod.fst
  let groupNodes := currentGroup.map Prod.snd
  (extractOutermostNewlinesF f groupDocs).foldl
    (fun s d => outputChildDocPC isPre (some d) groupNodes s) st

/-! ## The printer (plugin.js:494-949) -/

/-- The root value the Svelte parser hands to prettier: three optional
slots plus the markup fragment.  The source coerces the `module`,
`instance` and `css` slots to `Script`/`Style` nodes at print time and
extracts the script attribute lists from the raw text
(plugin.js:503-524); the model takes the already-coerced nodes, with their
attribute lists present on the node. -/
structure SvelteRoot where
  moduleScript : Option Node := none
  instanceScript : Option Node := none
  css : Option Node := none
  html : Node

/-- The per-node printer `print` (plugin.js:494).  The module-global
`ignoreNext` flag is threaded explicitly: the function takes its current
value and returns the value it has afterwards, also when the result is the
`unknown node type` error (the JS throw leaves the global cell as it was at
the moment of the throw).  `stack` is the list of ancestor nodes, nearest
first, mirroring prettier's `path.stack` (the node itself is pushed before
child lookups).  Fuelled; all recursive calls run at fuel `f`. -/
def printNodeF : Nat → Ctx → List Node → Node → Bool → Except PErr Doc × Bool
  | 0, _, _, _, ign => (.error .outOfFuel, ign)
  | f + 1, ctx, stack, n, ign =>
    -- `const [open, close] = options.svelteStrictMode ? ['"{', '}"'] : ['{', '}']`
    let openQ : String := if ctx.svelteStrictMode then "\"\x7b" else "\x7b"
    let closeQ : String := if ctx.svelteStrictMode then "\x7d\"" else "\x7d"
    -- `path.map((childPath) => childPath.call(print), prop)`, threading the flag
    let printList : List Node → List Node → Bool → Except PErr (List Doc) × Bool :=
      fun stk ns ign0 =>
        ns.foldl
          (fun acc c =>
            match acc with
            | (.error e, i) => (.error e, i)
            | (.ok ds, i) =>
              match printNodeF f ctx stk c i with
              | (.ok d, i') => (.ok (ds ++ [d]), i')
              | (.error e, i') => (.error e, i'))
          ((.ok [], ign0) : Except PErr (List Doc) × Bool)
    -- `printChildren` (plugin.js:958)
    let printChildrenL : List Node → List Node → Bool → Except PErr (List Doc) × Bool :=
      fun stk children ign0 =>
        let isPre := isPreStack stk
        let step :=
          children.foldl
            (fun acc c =>
              match acc with
              | (.error e, cg, st, i) => ((.error e : Except PErr Unit), cg, st, i)
              | (.ok _, cg, st, i) =>
                match printNodeF f ctx stk c i with
                | (.error e, i') => (.error e, cg, st, i')
                | (.ok childDoc, i') =>
                  if isInlineNode c then
                    (.ok (), cg ++ [(childDoc, c)], st, i')
                  else
                    let st1 := flushPC f isPre cg st
                    let wrapped :=
                      if isLineD childDoc then childDoc
                      else Doc.concat [.breakParent, childDoc]
                    (.ok (), [], outputChildDocPC isPre (some wrapped) [c] st1, i'))
            ((.ok (), [], {}, ign0) :
              Except PErr Unit × List (Doc × Node) × PCState × Bool)
        match step with
        | (.error e, _, _, i) => (.error e, i)
        | (.ok _, cg, st, i) =>
          let st1 := flushPC f isPre cg st
          let st2 := outputChildDocPC isPre none [] st1
          (.ok st2.childDocs, i)
    -- `printIndentedWithNewlines` (plugin.js:1046)
    let printIndWithNl : List Node → List Node → Bool → Except PErr Doc × Bool :=
      fun stk children ign0 =>
        match printChildrenL stk children ign0 with
        | (.error e, i) => (.error e, i)
        | (.ok ds, i) =>
          (.ok (.indent (.concat ([softlineD] ++ trimBothF isLineD f ds ++
            [.dedent softlineD]))), i)
    -- `printIndentedPreservingWhitespace` (plugin.js:1058)
    let printIndPreserve : List Node → List Node → Bool → Except PErr Doc × Bool :=
      fun stk children ign0 =>
        match printChildrenL stk children ign0 with
        | (.error e, i) => (.error e, i)
        | (.ok ds, i) => (.ok (.indent (.concat (dedentFinalNewlineF f ds))), i)
    -- `ThenBlock` / `PendingBlock` / `CatchBlock` body (plugin.js:798-805)
    let subBlockBody : List Node → Bool → Except PErr Doc × Bool :=
      fun children ign0 =>
        match printChildrenL (n :: stack) children ign0 with
        | (.error e, i) => (.error e, i)
        | (.ok ds, i) =>
          (.ok (.concat ([softlineD] ++ trimBothF isLineD f ds ++
            [.dedent softlineD])), i)
    -- the pending-ignore consumption branch (plugin.js:539)
    if ign && consumesIgnore n then
      (.ok (ignoredNodeDoc ctx n), false)
    else
      match n with
      | .fragment children _ _ =>
        if children.isEmpty || children.all isEmptyNode then
          (.ok (.text ""), ign)
        else if !isPreStack (n :: stack) then
          match printChildrenL (n :: stack) children ign with
          | (.error e, i) => (.error e, i)
          | (.ok ds, i) => (.ok (.concat (trimBothF isLineD f ds ++ [hardlineD])), i)
        else
          match printChildrenL (n :: stack) children ign with
          | (.error e, i) => (.error e, i)
          | (.ok ds, i) => (.ok (.concat ds), i)
      | .text _ dat _ _ =>
        if !isPreStack (n :: stack) then
          if isEmptyNode n then
            (.ok (.line .normal (hasDoubleNl (rawOrData n).toList)), ign)
          else
            (.ok (.fill (splitTextToDocs (rawOrData n))), ign)
        else
          (.ok (.text dat), ign)
      | .element tag name thisExpr attributes children _ _ =>
        let isSupportedLanguage :=
          !(name == "template" && !(isNodeSupportedLanguage n))
        let isEmptyE := children.all isEmptyNode
        let isSelfClosingTag :=
          isEmptyE &&
            (!ctx.svelteStrictMode || !(tag == ETag.element) ||
              selfClosingTags.contains name)
        let bodyStep : Except PErr Doc × Bool :=
          if isEmptyE then (.ok (.text ""), ign)
          else if !isSupportedLanguage then (.ok (.text (printRawF (f + 1) n)), ign)
          else if isInlineElement n || isPreStack (n :: stack) then
            printIndPreserve (n :: stack) children ign
          else printIndWithNl (n :: stack) children ign
        match bodyStep with
        | (.error e, i) => (.error e, i)
        | (.ok body, ign1) =>
          let thisStep : Except PErr Doc :=
            if tag == ETag.inlineComponent then
              match thisExpr with
              | some e0 =>
                match printExpr e0 with
                | .ok d0 =>
                  .ok (.concat [lineD, .text "this=", .text openQ, d0, .text closeQ])
                | .error e => .error e
              | none => .ok (.text "")
            else .ok (.text "")
          match thisStep with
          | .error e => (.error e, ign1)
          | .ok thisDoc =>
            match printList (n :: stack) attributes ign1 with
            | (.error e, i) => (.error e, i)
            | (.ok attrDocs, ign2) =>
              let bracketDoc : Doc :=
                if ctx.svelteBracketNewLine then
                  .dedent (if isSelfClosingTag then lineD else softlineD)
                else .text ""
              let tagTail : List Doc :=
                if isSelfClosingTag then
                  [(if ctx.svelteBracketNewLine then Doc.text "" else Doc.text " "),
                   Doc.text "/>"]
                else [Doc.text ">", body, Doc.text ("</" ++ name ++ ">")]
              (.ok (.group (.concat ([Doc.text "<", Doc.text name,
                .indent (.group (.concat ([thisDoc] ++ attrDocs ++ [bracketDoc])))] ++
                tagTail))), ign2)
      | .attribute name value _ _ =>
        if isOrCanBeConvertedToShorthand n then
          if ctx.svelteStrictMode then
            (.ok (.concat [lineD, .text name, .text "=\"\x7b", .text name,
              .text "\x7d\""]), ign)
          else if ctx.svelteAllowShorthand then
            (.ok (.concat [lineD, .text "\x7b", .text name, .text "\x7d"]), ign)
          else
            (.ok (.concat [lineD, .text name, .text "=\x7b", .text name,
              .text "\x7d"]), ign)
        else
          match value with
          | none => (.ok (.concat [lineD, .text name]), ign)
          | some valueNodes =>
            let quotes := !(isLoneMustacheTag value) || ctx.svelteStrictMode
            match printList (n :: stack) valueNodes ign with
            | (.error e, i) => (.error e, i)
            | (.ok valueDocs, ign1) =>
              let attrNodeValue :=
                if !quotes || !(formattableAttributes.contains name) then
                  Doc.concat valueDocs
                else .indent (.group (.concat (trimBothF isLineD f valueDocs)))
              if quotes then
                (.ok (.concat [lineD, .text name, .text "=", .text "\"",
                  attrNodeValue, .text "\""]), ign1)
              else
                (.ok (.concat [lineD, .text name, .text "=", attrNodeValue]), ign1)
      | .mustacheTag expression _ _ =>
        match printExpr expression with
        | .ok d => (.ok (.concat [.text "\x7b", d, .text "\x7d"]), ign)
        | .error e => (.error e, ign)
      | .attributeShorthand expression _ _ =>
        -- `node.expression.name`; a non-identifier expression would give
        -- `undefined`, modelled as ""
        (.ok (.text (match expression with | .ident nm => nm | _ => "")), ign)
      | .ifBlock expression children elseN _ _ =>
        match printExpr expression with
        | .error e => (.error e, ign)
        | .ok exprDoc =>
          match printIndWithNl (n :: stack) children ign with
          | (.error e, i) => (.error e, i)
          | (.ok bodyDoc, ign1) =>
            let elseStep : Except PErr (List Doc) × Bool :=
              match elseN with
              | some en =>
                match printNodeF f ctx (n :: stack) en ign1 with
                | (.ok d, i) => (.ok [d], i)
                | (.error e, i) => (.error e, i)
              | none => (.ok [], ign1)
            match elseStep with
            | (.error e, i) => (.error e, i)
            | (.ok elseDocs, ign2) =>
              (.ok (.concat [.group (.concat ([.text "\x7b#if ", exprDoc,
                .text "\x7d", bodyDoc] ++ elseDocs ++ [.text "\x7b/if\x7d"])),
                .breakParent]), ign2)
      | .elseBlock children _ _ =>
        let parentIsEach :=
          match stack.head? with
          | some (.eachBlock ..) => true
          | _ => false
        match children, parentIsEach with
        | [Node.ifBlock ifExpr ifChildren ifElse is0 ie0], false =>
          -- else-if chaining: print the nested if block's expression/body/else
          let ifN := Node.ifBlock ifExpr ifChildren ifElse is0 ie0
          match printExpr ifExpr with
          | .error e => (.error e, ign)
          | .ok exprDoc =>
            match printIndWithNl (ifN :: n :: stack) ifChildren ign with
            | (.error e, i) => (.error e, i)
            | (.ok bodyDoc, ign1) =>
              let elseStep : Except PErr (List Doc) × Bool :=
                match ifElse with
                | some en =>
                  match printNodeF f ctx (ifN :: n :: stack) en ign1 with
                  | (.ok d, i) => (.ok [d], i)
                  | (.error e, i) => (.error e, i)
                | none => (.ok [], ign1)
              match elseStep with
              | (.error e, i) => (.error e, i)
              | (.ok elseDocs, ign2) =>
                (.ok (.group (.concat ([.text "\x7b:else if ", exprDoc,
                  .text "\x7d", bodyDoc] ++ elseDocs))), ign2)
        | _, _ =>
          match printIndWithNl (n :: stack) children ign with
          | (.error e, i) => (.error e, i)
          | (.ok bodyDoc, i) =>
            (.ok (.group (.concat [.text "\x7b:else\x7d", bodyDoc])), i)
      | .eachBlock expression contextE index key children elseN _ _ =>
        match printExpr expression with
        | .error e => (.error e, ign)
        | .ok exprDoc =>
          match printExpr contextE with
          | .error e => (.error e, ign)
          | .ok ctxDoc =>
            let defIdx : List Doc :=
              match index with
              | some idx => [Doc.text ", ", Doc.text idx]
              | none => []
            let keyStep : Except PErr (List Doc) :=
              match key with
              | some k =>
                match printExpr k with
                | .ok kd => .ok [Doc.text " (", kd, Doc.text ")"]
                | .error e => .error e
              | none => .ok []
            match keyStep with
            | .error e => (.error e, ign)
            | .ok defKey =>
              match printIndWithNl (n :: stack) children ign with
              | (.error e, i) => (.error e, i)
              | (.ok bodyDoc, ign1) =>
                let elseStep : Except PErr (List Doc) × Bool :=
                  match elseN with
                  | some en =>
                    match printNodeF f ctx (n :: stack) en ign1 with
                    | (.ok d, i) => (.ok [d], i)
                    | (.error e, i) => (.error e, i)
                  | none => (.ok [], ign1)
                match elseStep with
                | (.error e, i) => (.error e, i)
                | (.ok elseDocs, ign2) =>
                  (.ok (.concat [.group (.concat ([.text "\x7b#each ", exprDoc,
                    .text " as ", ctxDoc] ++ defIdx ++ defKey ++
                    [.text "\x7d", bodyDoc] ++ elseDocs ++
                    [.text "\x7b/each\x7d"])), .breakParent]), ign2)
      | .awaitBlock expression value errorPat pend thenN catchN _ _ =>
        let hasPendingBlock := (getChildren pend).any (fun c => !isEmptyNode c)
        let hasThenBlock := (getChildren thenN).any (fun c => !isEmptyNode c)
        let hasCatchBlock := (getChildren catchN).any (fun c => !isEmptyNode c)
        let catchCont : List Doc → Bool → Except PErr Doc × Bool :=
          fun block ignC =>
            if hasCatchBlock then
              match expandNodeF (f + 1) errorPat with
              | .error e => (.error e, ignC)
              | .ok errStr =>
                match printNodeF f ctx (n :: stack) catchN ignC with
                | (.error e, i) => (.error e, i)
                | (.ok catchDoc, i) =>
                  (.ok (.group (.concat (block ++
                    [Doc.group (.concat [.text "\x7b:catch", .text errStr,
                      .text "\x7d"]), .indent catchDoc,
                     .text "\x7b/await\x7d"]))), i)
            else
              (.ok (.group (.concat (block ++ [.text "\x7b/await\x7d"]))), ignC)
        match printExpr expression with
        | .error e => (.error e, ign)
        | .ok exprDoc =>
          if !hasPendingBlock && hasThenBlock then
            match expandNodeF (f + 1) value with
            | .error e => (.error e, ign)
            | .ok valueStr =>
              match printNodeF f ctx (n :: stack) thenN ign with
              | (.error e, i) => (.error e, i)
              | (.ok thenDoc, ign1) =>
                catchCont
                  [Doc.group (.concat [.text "\x7b#await ", exprDoc,
                    .text " then", .text valueStr, .text "\x7d"]),
                   .indent thenDoc] ign1
          else
            let block0 := [Doc.group (.concat [.text "\x7b#await ", exprDoc,
              .text "\x7d"])]
            let pendStep : Except PErr (List Doc) × Bool :=
              if hasPendingBlock then
                match printNodeF f ctx (n :: stack) pend ign with
                | (.ok d, i) => (.ok (block0 ++ [.indent d]), i)
                | (.error e, i) => (.error e, i)
              else (.ok block0, ign)
            match pendStep with
            | (.error e, i) => (.error e, i)
            | (.ok block1, ign1) =>
              if hasThenBlock then
                match expandNodeF (f + 1) value with
                | .error e => (.error e, ign1)
                | .ok valueStr =>
                  match printNodeF f ctx (n :: stack) thenN ign1 with
                  | (.error e, i) => (.error e, i)
                  | (.ok thenDoc, ign2) =>
                    catchCont (block1 ++
                      [Doc.group (.concat [.text "\x7b:then", .text valueStr,
                        .text "\x7d"]), .indent thenDoc]) ign2
              else catchCont block1 ign1
      | .pendingBlock children _ _ => subBlockBody children ign
      | .thenBlock children _ _ => subBlockBody children ign
      | .catchBlock children _ _ => subBlockBody children ign
      | .comment dat _ _ =>
        if isIgnoreDirective n && (getNextNodeOf stack n).isNone then
          (.ok (.text ""), ign)
        else
          let ign1 := if isIgnoreDirective n then true else ign
          let textC := if hasSnippedContent dat then unsnipContent dat else dat
          (.ok (.group (.concat [.text "<!--", .text textC, .text "-->"])), ign1)
      | .script _ _ _ =>
        -- the two external `prettier.format` dispatches (babel, then an
        -- html re-wrap) applied to the decoded snipped content,
        -- plugin.js:917-926, modelled as one opaque embed-format doc
        (.ok (.embedFormat "script" (getSnippedContent n)), ign)
      | .style _ _ =>
        -- there is no `Style` case in `print`: the switch falls through to
        -- `throw new Error("unknown node type: Style")` (plugin.js:947)
        (.error (.unknownNodeType "Style"), ign)

/-- The part-accumulation loop of the root case (plugin.js:501-533):
`parseSortOrder(options.svelteSortOrder).forEach((p) => addParts[p]())`. -/
def printRootPartsF (fuel : Nat) (ctx : Ctx) (r : SvelteRoot) :
    List SortPart → List Doc → Bool → Except PErr (List Doc) × Bool
  | [], parts, ign => (.ok parts, ign)
  | p :: ps, parts, ign =>
    match p with
    | .scripts =>
      let s1 : Except PErr (List Doc) × Bool :=
        match r.moduleScript with
        | some m =>
          match printNodeF fuel ctx [] m ign with
          | (.ok d, i) => (.ok (parts ++ [d]), i)
          | (.error e, i) => (.error e, i)
        | none => (.ok parts, ign)
      match s1 with
      | (.error e, i) => (.error e, i)
      | (.ok parts1, i1) =>
        match r.instanceScript with
        | some m =>
          match printNodeF fuel ctx [] m i1 with
          | (.ok d, i2) => printRootPartsF fuel ctx r ps (parts1 ++ [d]) i2
          | (.error e, i2) => (.error e, i2)
        | none => printRootPartsF fuel ctx r ps parts1 i1
    | .styles =>
      match r.css with
      | some c =>
        match printNodeF fuel ctx [] c ign with
        | (.ok d, i) => printRootPartsF fuel ctx r ps (parts ++ [d]) i
        | (.error e, i) => (.error e, i)
      | none => printRootPartsF fuel ctx r ps parts ign
    | .markup =>
      match printNodeF fuel ctx [] r.html ign with
      | (.error e, i) => (.error e, i)
      | (.ok d, i) =>
        printRootPartsF fuel ctx r ps (if docTruthy d then parts ++ [d] else parts) i

/-- One top-level format invocation: the `isASTNode` branch of `print`
(plugin.js:499-535).  The flag is reset *after* all parts have printed,
immediately before the successful return; a thrown error leaves it as it
was (the JS global cell survives the exception). -/
def printRootF (fuel : Nat) (ctx : Ctx) (r : SvelteRoot) (ign : Bool) :
    Except PErr Doc × Bool :=
  match printRootPartsF fuel ctx r ctx.svelteSortOrder [] ign with
  | (.error e, i) => (.error e, i)
  | (.ok parts, _) =>
    (.ok (.group (.concat (parts.intersperse hardlineD))), false)

/-! ## Further doc predicates used by the claims -/

/-- Does a printed element doc end in the self-closing delimiter `/>` (as
opposed to `>` + body + explicit end tag)? -/
def rendersSelfClosed (d : Doc) : Bool :=
  match d with
  | .group (.concat parts) =>
    match parts.getLast? with
    | some (.text s) => s = "/>"
    | _ => false
  | _ => false

/-- Is the doc itself a forced (hard or literal) line, i.e. one that always
breaks regardless of group fit? -/
def isForcedLineDoc : Doc → Bool
  | .line .hard _ => true
  | .line .literal _ => true
  | _ => false

/-! ## The claims -/

/-- Every character code `btoa` emits is an alphabet character or the
padding character, hence at most 122. -/
theorem b64Char_le (v : Nat) : b64Char v ≤ 122 := by
  rcases Nat.lt_or_ge v 64 with h | h
  · revert h
    revert v
    decide
  · unfold b64Char
    rw [List.getD_eq_default]
    · omega
    · simp only [b64Chars, List.length]
      omega

theorem btoa_mem_le {l : List Nat} {x : Nat} (hx : x ∈ btoa l) : x ≤ 122 := by
  induction l using btoa.induct with
  | case1 => simp [btoa] at hx
  | case2 a =>
    simp only [btoa, List.mem_cons, List.not_mem_nil, or_false] at hx
    rcases hx with h | h | h | h <;> subst h <;> first | exact b64Char_le _ | decide
  | case3 a b =>
    simp only [btoa, List.mem_cons, List.not_mem_nil, or_false] at hx
    rcases hx with h | h | h | h <;> subst h <;> first | exact b64Char_le _ | decide
  | case4 a b c rest ih =>
    simp only [btoa, List.mem_cons] at hx
    rcases hx with h | h | h | h | h
    · subst h; exact b64Char_le _
    · subst h; exact b64Char_le _
    · subst h; exact b64Char_le _
    · subst h; exact b64Char_le _
    · exact ih h

/-- `Char.ofNat` is inverted by `Char.toNat` below the surrogate range. -/
theorem char_toNat_ofNat_of_lt (x : Nat) (h : x < 55296) : (Char.ofNat x).toNat = x := by
  simp [Char.ofNat, Nat.isValidChar, h, Char.toNat, Char.ofNatAux, UInt32.toNat]

theorem map_ofNat_toNat (l : List Nat) (h : ∀ x ∈ l, x < 55296) :
    (l.map Char.ofNat).map Char.toNat = l := by
  induction l with
  | nil => rfl
  | cons a as ih =>
    simp only [List.map_cons, List.cons.injEq]
    exact ⟨char_toNat_ofNat_of_lt a (h a (by simp)),
      ih (fun x hx => h x (by simp [hx]))⟩

theorem map_toNat_ofNat_char (l : List Char) :
    (l.map Char.toNat).map Char.ofNat = l := by
  induction l with
  | nil => rfl
  | cons a as ih => simp [Char.ofNat_toNat, ih]

/-- **C2.**  The embedded-region codec's reversible text encoding
round-trips arbitrary byte content: decoding (`atob`, applied by both
`unsnipContent` and `getSnippedContent`) the encoding (`btoa`, applied by
`snipTagContent` when it builds the
`✂prettier:content✂="..."` marker attribute) of any byte sequence —
including angle brackets, quotes and newlines — returns exactly the
original bytes, without any sublanguage formatter involved.  The second
conjunct is the same round trip at the level the plugin actually calls:
strings of Latin-1 code units (the domain of the browser `btoa`). -/
theorem snip_unsnip_roundtrip :
    (∀ (body : List Nat), (∀ b ∈ body, b < 256) → atob (btoa body) = body) ∧
    (∀ (s : String), (∀ c ∈ s.toList, c.toNat < 256) → atobStr (btoaStr s) = s) := by
  have part1 : ∀ (body : List Nat), (∀ b ∈ body, b < 256) → atob (btoa body) = body := by
    intro body h
    induction body using btoa.induct with
    | case1 => simp [btoa, atob]
    | case2 a =>
      have ha : a < 256 := h a (by simp)
      simp only [btoa, atob, if_true, eq_self_iff_true]
      rw [b64Value_b64Char _ (by omega), b64Value_b64Char _ (by omega)]
      simp only [List.cons.injEq, and_true]
      omega
    | case3 a b =>
      have ha : a < 256 := h a (by simp)
      have hb : b < 256 := h b (by simp)
      simp only [btoa, atob, if_true, eq_self_iff_true]
      rw [if_neg (b64Char_ne_pad _ (by omega))]
      rw [b64Value_b64Char _ (by omega), b64Value_b64Char _ (by omega),
          b64Value_b64Char _ (by omega)]
      simp only [List.cons.injEq, and_true]
      exact ⟨by omega, by omega⟩
    | case4 a b c rest ih =>
      have ha : a < 256 := h a (by simp)
      have hb : b < 256 := h b (by simp)
      have hc : c < 256 := h c (by simp)
      have hrest : ∀ x ∈ rest, x < 256 := fun x hx => h x (by simp [hx])
      simp only [btoa, atob]
      rw [if_neg (b64Char_ne_pad _ (by omega))]
      rw [b64Value_b64Char _ (by omega), b64Value_b64Char _ (by omega),
          b64Value_b64Char _ (by omega), b64Value_b64Char _ (by omega)]
      rw [ih hrest]
      simp only [List.cons.injEq, and_true]
      exact ⟨by omega, by omega, by omega⟩
  refine ⟨part1, ?_⟩
  intro s hs
  unfold atobStr btoaStr
  have h1 : (String.mk ((btoa (s.toList.map Char.toNat)).map Char.ofNat)).toList
      = (btoa (s.toList.map Char.toNat)).map Char.ofNat := rfl
  rw [h1, map_ofNat_toNat _
    (fun x hx => Nat.lt_of_le_of_lt (btoa_mem_le hx) (by omega))]
  rw [part1 _ (by
    intro b hb
    obtain ⟨c, hc, hbc⟩ := List.mem_map.mp hb
    exact hbc ▸ hs c hc)]
  rw [map_toNat_ofNat_char]
  cases s
  rfl

/-- Witness for C2 at a concrete byte body containing `<`, `"`, a newline,
a NUL byte and a byte above 127, and at a concrete Latin-1 string. -/
theorem snip_unsnip_roundtrip_witness :
    ((∀ b ∈ [60, 34, 10, 62, 0, 255, 123], b < 256) ∧
      atob (btoa [60, 34, 10, 62, 0, 255, 123]) = [60, 34, 10, 62, 0, 255, 123]) ∧
    ((∀ c ∈ ("p \x7b color: red \x7d <\"a\">\n".toList), c.toNat < 256) ∧
      atobStr (btoaStr "p \x7b color: red \x7d <\"a\">\n")
        = "p \x7b color: red \x7d <\"a\">\n") :=
  ⟨⟨by decide, snip_unsnip_roundtrip.1 [60, 34, 10, 62, 0, 255, 123] (by decide)⟩,
   ⟨by decide, snip_unsnip_roundtrip.2 "p \x7b color: red \x7d <\"a\">\n" (by decide)⟩⟩

/-! ### C3 — forced breaks of control-flow blocks -/

/-- A concrete await block `\x7b#await p\x7d y\x7b/await\x7d`-shaped node: a
non-empty pending branch, empty then/catch branches. -/
def c3AwaitNode : Node :=
  .awaitBlock (.ident "p") none none
    (.pendingBlock [.text "y" "y" 10 11] 10 11) (.thenBlock [] 11 11)
    (.catchBlock [] 11 11) 0 20

/-- The doc `print` produces for `c3AwaitNode`: groups, indents, soft lines
and fills only — no hard or literal line and no break-parent anywhere. -/
def c3AwaitDoc : Doc :=
  .group (.concat
    [.group (.concat [.text "\x7b#await ", .text "p", .text "\x7d"]),
     .indent (.concat [softlineD, .fill [.fill [.text "y"]], .dedent softlineD]),
     .text "\x7b/await\x7d"])

/-- **C3, counterexample.**  The claim says every conditional, iteration
*and awaited-value* block's doc carries a forced break.  The `AwaitBlock`
case (plugin.js:755-797) returns `group(concat(block))` *without* the
`breakParent` that the `IfBlock` and `EachBlock` cases append: printing the
concrete await block above succeeds and the resulting document contains no
forced break at all, so it renders flat whenever it fits. -/
theorem awaitBlock_prints_without_forced_break :
    printNodeF 20 {} [] c3AwaitNode false = (.ok c3AwaitDoc, false) ∧
      containsForcedBreakF 50 c3AwaitDoc = false :=
  ⟨rfl, rfl⟩

/-- **C3, amended.**  Conditional (`IfBlock`) and iteration (`EachBlock`)
nodes unconditionally attach a forced break: whenever printing one of them
succeeds, the resulting document is `concat [group ..., breakParent]`, so
the block is never rendered flat.  (Awaited-value blocks attach no such
break; see the counterexample.) -/
theorem ifBlock_eachBlock_attach_breakParent :
    (∀ (f : Nat) (ctx : Ctx) (stack : List Node) (e : JSExpr) (ch : List Node)
      (els : Option Node) (s en : Nat) (d : Doc) (b : Bool),
      printNodeF (f + 1) ctx stack (.ifBlock e ch els s en) false = (.ok d, b) →
      ∃ g, d = Doc.concat [.group g, .breakParent]) ∧
    (∀ (f : Nat) (ctx : Ctx) (stack : List Node) (e cE : JSExpr) (idx : Option String)
      (k : Option JSExpr) (ch : List Node) (els : Option Node) (s en : Nat)
      (d : Doc) (b : Bool),
      printNodeF (f + 1) ctx stack (.eachBlock e cE idx k ch els s en) false = (.ok d, b) →
      ∃ g, d = Doc.concat [.group g, .breakParent]) := by
  constructor
  · intro f ctx stack e ch els s en d b h
    simp only [printNodeF] at h
    simp only [consumesIgnore, Bool.false_and, if_false, Bool.false_eq_true, ite_false] at h
    repeat' split at h
    all_goals simp at h
    all_goals exact ⟨_, h.1.symm⟩
  · intro f ctx stack e cE idx k ch els s en d b h
    simp only [printNodeF] at h
    simp only [consumesIgnore, Bool.false_and, if_false, Bool.false_eq_true, ite_false] at h
    repeat' split at h
    all_goals simp at h
    all_goals exact ⟨_, h.1.symm⟩

/-- The doc printed for a concrete `\x7b#if p\x7dy\x7b/if\x7d` block. -/
def c3IfDoc : Doc :=
  .concat
    [.group (.concat [.text "\x7b#if ", .text "p", .text "\x7d",
      .indent (.concat [softlineD, .fill [.fill [.text "y"]], .dedent softlineD]),
      .text "\x7b/if\x7d"]),
     .breakParent]

/-- The doc printed for a concrete `\x7b#each xs as x\x7dy\x7b/each\x7d` block. -/
def c3EachDoc : Doc :=
  .concat
    [.group (.concat [.text "\x7b#each ", .text "xs", .text " as ", .text "x",
      .text "\x7d",
      .indent (.concat [softlineD, .fill [.fill [.text "y"]], .dedent softlineD]),
      .text "\x7b/each\x7d"]),
     .breakParent]

/-- Witness for the amended C3 at concrete if and each blocks. -/
theorem ifBlock_eachBlock_attach_breakParent_witness :
    (∃ g, c3IfDoc = Doc.concat [.group g, .breakParent]) ∧
      (∃ g, c3EachDoc = Doc.concat [.group g, .breakParent]) :=
  ⟨ifBlock_eachBlock_attach_breakParent.1 19 {} [] (.ident "p")
      [.text "y" "y" 7 8] none 0 14 c3IfDoc false rfl,
   ifBlock_eachBlock_attach_breakParent.2 19 {} [] (.ident "xs") (.ident "x")
      none none [.text "y" "y" 12 13] none 0 22 c3EachDoc false rfl⟩

/-! ### C4 — unsupported sublanguages -/

/-- A concrete `Script` node carrying `lang="coffee"` (an unsupported
language) and a snipped body encoding `"x"` (`btoa("x") = "eA=="`). -/
def c4ScriptNode : Node :=
  .script
    [.attribute "lang" (some [.text "coffee" "coffee" 14 20]) 8 21,
     .attribute snippedTagContentAttribute (some [.text "eA==" "eA==" 43 47]) 22 48]
    0 60

/-- **C4, counterexample.**  The claim says *every* embedded-region node
with an unsupported declared language is reproduced byte-for-byte instead
of being dispatched.  The `Script` case (plugin.js:917-926) performs no
language check at all: this script node declares `lang="coffee"` —
on the unsupported list — yet printing it dispatches the decoded snipped
body to the external script formatter (and the printed doc is the opaque
formatter result, not the raw body). -/
theorem script_unsupported_lang_dispatched :
    getLangAttribute c4ScriptNode = some "coffee" ∧
      unsupportedLanguages.contains "coffee" = true ∧
      printNodeF 9 {} [] c4ScriptNode false = (.ok (.embedFormat "script" "x"), false) ∧
      containsEmbedFormatF 9 (.embedFormat "script" "x") = true :=
  ⟨rfl, rfl, rfl, rfl⟩

/-- **C4, amended.**  The verbatim passthrough applies to `template`
*elements* whose declared language is unsupported (and it is not an
error): the printed doc embeds the node's raw body (`printRaw`)
byte-for-byte as its element body, with no sublanguage dispatch.  `Script`
nodes, by contrast, are always dispatched to the script formatter, whatever
their `lang` attribute says.  (`Style` nodes have no printing rule at all
and are a fatal unknown-node error.) -/
theorem template_passthrough_and_script_dispatch :
    (∀ (f : Nat) (ctx : Ctx) (stack : List Node) (thisE : Option JSExpr)
      (attrs ch : List Node) (s en : Nat) (d : Doc) (b : Bool),
      isNodeSupportedLanguage (.element .element "template" thisE attrs ch s en) = false →
      ch.all isEmptyNode = false →
      printNodeF (f + 1) ctx stack (.element .element "template" thisE attrs ch s en) false
        = (.ok d, b) →
      ∃ inner, d = .group (.concat [Doc.text "<", Doc.text "template", .indent inner,
        Doc.text ">",
        Doc.text (printRawF (f + 1) (.element .element "template" thisE attrs ch s en)),
        Doc.text "</template>"])) ∧
    (∀ (f : Nat) (ctx : Ctx) (stack : List Node) (attrs : List Node) (s en : Nat),
      printNodeF (f + 1) ctx stack (.script attrs s en) false =
        (.ok (.embedFormat "script" (getSnippedContent (.script attrs s en))), false)) := by
  constructor
  · intro f ctx stack thisE attrs ch s en d b hl hch h
    simp only [printNodeF] at h
    simp only [hl, hch, consumesIgnore, Bool.false_and, Bool.not_false, Bool.and_self,
      if_false, Bool.false_eq_true, ite_false, if_true, ite_true, Bool.and_true,
      Bool.not_true, Bool.and_false,
      show ("template" == "template") = true from rfl,
      show (ETag.element == ETag.inlineComponent) = false from rfl, Bool.true_and] at h
    repeat' split at h
    all_goals simp at h
    all_goals exact ⟨_, h.1.symm⟩
  · intro f ctx stack attrs s en
    simp only [printNodeF]
    simp [consumesIgnore]

/-- A concrete `<template lang="pug">p x</template>` element node. -/
def c4TemplateNode : Node :=
  .element .element "template" none
    [.attribute "lang" (some [.text "pug" "pug" 16 19]) 10 20]
    [.text "p x" "p x" 21 24] 0 35

/-- The doc printed for `c4TemplateNode`: the raw body `"p x"` verbatim. -/
def c4TemplateDoc : Doc :=
  .group (.concat [.text "<", .text "template",
    .indent (.group (.concat [.text "", .concat [lineD, .text "lang", .text "=",
      .text "\"", .concat [.text "pug"], .text "\""], .text ""])),
    .text ">", .text "p x", .text "</template>"])

/-- Witness for the amended C4 at the concrete template node (whose raw
body `"p x"` is reproduced) and at the concrete script node. -/
theorem template_passthrough_and_script_dispatch_witness :
    (∃ inner, c4TemplateDoc = .group (.concat [Doc.text "<", Doc.text "template",
      .indent inner, Doc.text ">", Doc.text (printRawF 9 c4TemplateNode),
      Doc.text "</template>"])) ∧
    printNodeF 9 {} [] c4ScriptNode false =
      (.ok (.embedFormat "script" (getSnippedContent c4ScriptNode)), false) :=
  ⟨template_passthrough_and_script_dispatch.1 8 {} [] none
      [.attribute "lang" (some [.text "pug" "pug" 16 19]) 10 20]
      [.text "p x" "p x" 21 24] 0 35 c4TemplateDoc false rfl rfl rfl,
   template_passthrough_and_script_dispatch.2 8 {} []
      [.attribute "lang" (some [.text "coffee" "coffee" 14 20]) 8 21,
       .attribute snippedTagContentAttribute (some [.text "eA==" "eA==" 43 47]) 22 48]
      0 60⟩

/-! ### C5 — shorthand equivalence -/

/-- **C5.**  An attribute `x=\x7bx\x7d` (a lone mustache whose expression
is an identifier equal to the attribute name) and an attribute already in
shorthand form print to identical documents under shorthand-enabled
non-strict configuration (both as ` \x7bx\x7d`), and under strict
configuration both print as ` x="\x7bx\x7d"` — whatever the shorthand
toggle says. -/
theorem shorthand_equivalence :
    (∀ (f : Nat) (ctx : Ctx) (stack : List Node) (name : String) (sm em sA eA : Nat),
      ctx.svelteStrictMode = false → ctx.svelteAllowShorthand = true →
      printNodeF (f + 1) ctx stack
        (.attribute name (some [.mustacheTag (.ident name) sm em]) sA eA) false
        = (.ok (.concat [lineD, .text "\x7b", .text name, .text "\x7d"]), false)) ∧
    (∀ (f : Nat) (ctx : Ctx) (stack : List Node) (name : String) (sa ea sA eA : Nat),
      ctx.svelteStrictMode = false → ctx.svelteAllowShorthand = true →
      printNodeF (f + 1) ctx stack
        (.attribute name (some [.attributeShorthand (.ident name) sa ea]) sA eA) false
        = (.ok (.concat [lineD, .text "\x7b", .text name, .text "\x7d"]), false)) ∧
    (∀ (f : Nat) (ctx : Ctx) (stack : List Node) (name : String) (sm em sA eA : Nat),
      ctx.svelteStrictMode = true →
      printNodeF (f + 1) ctx stack
        (.attribute name (some [.mustacheTag (.ident name) sm em]) sA eA) false
        = (.ok (.concat [lineD, .text name, .text "=\"\x7b", .text name,
            .text "\x7d\""]), false)) ∧
    (∀ (f : Nat) (ctx : Ctx) (stack : List Node) (name : String) (sa ea sA eA : Nat),
      ctx.svelteStrictMode = true →
      printNodeF (f + 1) ctx stack
        (.attribute name (some [.attributeShorthand (.ident name) sa ea]) sA eA) false
        = (.ok (.concat [lineD, .text name, .text "=\"\x7b", .text name,
            .text "\x7d\""]), false)) := by
  refine ⟨?_, ?_, ?_, ?_⟩
  · intro f ctx stack name sm em sA eA hs ha
    simp only [printNodeF]
    simp [hs, ha, isOrCanBeConvertedToShorthand, isAttributeShorthandV, consumesIgnore]
  · intro f ctx stack name sa ea sA eA hs ha
    simp only [printNodeF]
    simp [hs, ha, isOrCanBeConvertedToShorthand, isAttributeShorthandV, consumesIgnore]
  · intro f ctx stack name sm em sA eA hs
    simp only [printNodeF]
    simp [hs, isOrCanBeConvertedToShorthand, isAttributeShorthandV, consumesIgnore]
  · intro f ctx stack name sa ea sA eA hs
    simp only [printNodeF]
    simp [hs, isOrCanBeConvertedToShorthand, isAttributeShorthandV, consumesIgnore]

/-- Witness for C5: the attribute `x=\x7bx\x7d` and the shorthand
attribute at concrete positions, under the default configuration and under
strict mode. -/
theorem shorthand_equivalence_witness :
    printNodeF 9 {} [] (.attribute "x" (some [.mustacheTag (.ident "x") 3 6]) 0 7) false
      = (.ok (.concat [lineD, .text "\x7b", .text "x", .text "\x7d"]), false) ∧
    printNodeF 9 {} [] (.attribute "x" (some [.attributeShorthand (.ident "x") 1 2]) 0 3) false
      = (.ok (.concat [lineD, .text "\x7b", .text "x", .text "\x7d"]), false) ∧
    printNodeF 9 ({ svelteStrictMode := true } : Ctx) []
      (.attribute "x" (some [.mustacheTag (.ident "x") 3 6]) 0 7) false
      = (.ok (.concat [lineD, .text "x", .text "=\"\x7b", .text "x",
          .text "\x7d\""]), false) ∧
    printNodeF 9 ({ svelteStrictMode := true } : Ctx) []
      (.attribute "x" (some [.attributeShorthand (.ident "x") 1 2]) 0 3) false
      = (.ok (.concat [lineD, .text "x", .text "=\"\x7b", .text "x",
          .text "\x7d\""]), false) :=
  ⟨shorthand_equivalence.1 8 {} [] "x" 3 6 0 7 rfl rfl,
   shorthand_equivalence.2.1 8 {} [] "x" 1 2 0 3 rfl rfl,
   shorthand_equivalence.2.2.1 8 _ [] "x" 3 6 0 7 rfl,
   shorthand_equivalence.2.2.2 8 _ [] "x" 1 2 0 3 rfl⟩

/-! ### C6 — self-closing correctness -/

/-- **C6.**  An `Element` node all of whose children are whitespace-only:
under strict mode its printed doc ends in the self-closing delimiter `/>`
iff its tag name is on the self-closing allow-list (otherwise it gets an
explicit end tag); under non-strict mode it always self-closes. -/
theorem empty_element_self_closing :
    (∀ (f : Nat) (ctx : Ctx) (stack : List Node) (name : String) (thisE : Option JSExpr)
      (attrs ch : List Node) (s en : Nat) (d : Doc) (b : Bool),
      ctx.svelteStrictMode = true → ch.all isEmptyNode = true →
      printNodeF (f + 1) ctx stack (.element .element name thisE attrs ch s en) false
        = (.ok d, b) →
      (rendersSelfClosed d = true ↔ selfClosingTags.contains name = true)) ∧
    (∀ (f : Nat) (ctx : Ctx) (stack : List Node) (name : String) (thisE : Option JSExpr)
      (attrs ch : List Node) (s en : Nat) (d : Doc) (b : Bool),
      ctx.svelteStrictMode = false → ch.all isEmptyNode = true →
      printNodeF (f + 1) ctx stack (.element .element name thisE attrs ch s en) false
        = (.ok d, b) →
      rendersSelfClosed d = true) := by
  constructor
  · intro f ctx stack name thisE attrs ch s en d b hstrict hch h
    simp only [printNodeF] at h
    simp only [hstrict, hch, consumesIgnore, Bool.false_and, Bool.not_true, Bool.false_or,
      Bool.and_self, if_false, Bool.false_eq_true, ite_false, if_true, ite_true,
      show (ETag.element == ETag.inlineComponent) = false from rfl,
      show (ETag.element == ETag.element) = true from rfl, Bool.true_and] at h
    split at h
    next e i heq => simp at h
    next attrDocs ign2 heq =>
      simp only [Prod.mk.injEq, Except.ok.injEq] at h
      obtain ⟨hd, hb⟩ := h
      subst hd
      have hne : ("</" ++ name ++ ">") ≠ "/>" := by
        intro hcontra
        have hlen := congrArg String.length hcontra
        rw [String.length_append, String.length_append] at hlen
        have h2 : ("</" : String).length = 2 := rfl
        have h1 : (">" : String).length = 1 := rfl
        have h3 : ("/>" : String).length = 2 := rfl
        omega
      by_cases hc : name ∈ selfClosingTags
      · simp [hc, rendersSelfClosed]
      · simp [hc, rendersSelfClosed, hne]
  · intro f ctx stack name thisE attrs ch s en d b hstrict hch h
    simp only [printNodeF] at h
    simp only [hstrict, hch, consumesIgnore, Bool.false_and, Bool.not_false, Bool.true_or,
      Bool.false_or, Bool.and_self, if_false, Bool.false_eq_true, ite_false, if_true,
      ite_true, show (ETag.element == ETag.inlineComponent) = false from rfl,
      Bool.true_and] at h
    repeat' split at h
    all_goals simp at h
    all_goals (rw [← h.1]; simp [rendersSelfClosed])

/-- The docs printed for empty `<input>` / `<div>` elements in strict mode
and for an empty `<div>` in non-strict mode. -/
def c6InputStrictDoc : Doc :=
  .group (.concat [.text "<", .text "input",
    .indent (.group (.concat [.text "", .text ""])), .text " ", .text "/>"])

def c6DivStrictDoc : Doc :=
  .group (.concat [.text "<", .text "div",
    .indent (.group (.concat [.text "", .text ""])), .text ">", .text "",
    .text "</div>"])

def c6DivLooseDoc : Doc :=
  .group (.concat [.text "<", .text "div",
    .indent (.group (.concat [.text "", .text ""])), .text " ", .text "/>"])

/-- Witness for C6: `<input>` (on the allow-list) and `<div>` (not on it)
under strict mode, and `<div>` under non-strict mode. -/
theorem empty_element_self_closing_witness :
    (rendersSelfClosed c6InputStrictDoc = true ↔
      selfClosingTags.contains "input" = true) ∧
    (rendersSelfClosed c6DivStrictDoc = true ↔
      selfClosingTags.contains "div" = true) ∧
    rendersSelfClosed c6DivLooseDoc = true :=
  ⟨empty_element_self_closing.1 8 ({ svelteStrictMode := true } : Ctx) [] "input" none
      [] [] 0 9 c6InputStrictDoc false rfl rfl rfl,
   empty_element_self_closing.1 8 ({ svelteStrictMode := true } : Ctx) [] "div" none
      [] [] 0 9 c6DivStrictDoc false rfl rfl rfl,
   empty_element_self_closing.2 8 {} [] "div" none [] [] 0 9 c6DivLooseDoc false
      rfl rfl rfl⟩

/-! ### C7 — the ignore comment and its target -/

/-- Source text `<!-- prettier-ignore -->\n<div />` and its three sibling
nodes inside the markup fragment. -/
def c7Ctx : Ctx := { originalText := "<!-- prettier-ignore -->\n<div />" }
def c7Comment : Node := .comment " prettier-ignore " 0 24
def c7Ws : Node := .text "\n" "\n" 24 25
def c7Div : Node := .element .element "div" none [] [] 25 32
def c7Frag : Node := .fragment [c7Comment, c7Ws, c7Div] 0 32

/-- **C7, counterexample.**  The claim says printing is suppressed for
*exactly the next sibling* of the ignore comment.  Here the next sibling is
the whitespace text node `"\n"`: the comment sets the flag, but the
whitespace sibling is *not* suppressed — it prints as an ordinary line doc
(not its source slice) and leaves the flag set — and it is the *later*
`<div />` sibling that is reproduced as its raw source slice. -/
theorem ignore_comment_skips_whitespace_sibling :
    printNodeF 9 c7Ctx [c7Frag] c7Comment false
      = (.ok (.group (.concat [.text "<!--", .text " prettier-ignore ",
          .text "-->"])), true) ∧
    getNextNodeOf [c7Frag] c7Comment = some c7Ws ∧
    printNodeF 9 c7Ctx [c7Frag] c7Ws true = (.ok (.line .normal false), true) ∧
    isLineD (.line .normal false) = true ∧
    isLineD (ignoredNodeDoc c7Ctx c7Ws) = false ∧
    printNodeF 9 c7Ctx [c7Frag] c7Div true = (.ok (ignoredNodeDoc c7Ctx c7Div), false) ∧
    ignoredNodeDoc c7Ctx c7Div = .concat [.text "<div />"] :=
  ⟨rfl, rfl, rfl, rfl, rfl, rfl, rfl⟩

/-- **C7, amended.**  After an ignore comment (with a following sibling)
sets the flag, suppression applies to the next sibling that is *not* a
whitespace-only text node: every node except whitespace-only text consumes
the flag and is reproduced as its original source slice with internal
newlines remapped to literal line breaks, while a whitespace-only text
node prints normally and leaves the flag set. -/
theorem ignore_suppresses_next_nonwhitespace_sibling :
    (∀ (f : Nat) (ctx : Ctx) (stack : List Node) (n : Node),
      consumesIgnore n = true →
      printNodeF (f + 1) ctx stack n true = (.ok (ignoredNodeDoc ctx n), false)) ∧
    (∀ (f : Nat) (ctx : Ctx) (stack : List Node) (raw dat : String) (s en : Nat),
      isEmptyNode (.text raw dat s en) = true →
      isPreStack (.text raw dat s en :: stack) = false →
      printNodeF (f + 1) ctx stack (.text raw dat s en) true
        = (.ok (.line .normal (hasDoubleNl (rawOrData (.text raw dat s en)).toList)),
           true)) := by
  constructor
  · intro f ctx stack n h
    simp only [printNodeF]
    simp [h]
  · intro f ctx stack raw dat s en he hp
    simp only [printNodeF]
    simp [he, hp, consumesIgnore, isTextN]

/-- Witness for the amended C7 at the `<div />` node (suppressed, raw
slice) and the `"\n"` text node (printed normally, flag kept). -/
theorem ignore_suppresses_next_nonwhitespace_sibling_witness :
    printNodeF 9 c7Ctx [c7Frag] c7Div true = (.ok (ignoredNodeDoc c7Ctx c7Div), false) ∧
    printNodeF 9 c7Ctx [c7Frag] c7Ws true
      = (.ok (.line .normal (hasDoubleNl (rawOrData c7Ws).toList)), true) :=
  ⟨ignore_suppresses_next_nonwhitespace_sibling.1 8 c7Ctx [c7Frag] c7Div rfl,
   ignore_suppresses_next_nonwhitespace_sibling.2 8 c7Ctx [c7Frag] "\n" "\n" 24 25
     rfl rfl⟩

/-! ### C8 — whitespace-only text between siblings -/

/-- **C8, counterexample.**  The claim says a whitespace-only text node
containing a blank line is marked keep-if-lonely *and renders as a forced
blank line even when otherwise discardable*.  The `Text` case
(plugin.js:561-574) spreads the plain `line` builder — it sets
`keepIfLonely` but not `hard` — so the printed doc for `"\n\n"` is a
*normal* line, not a forced one: inside a group that fits it renders flat
(as a space), and no forced break is attached.  (Contrast
`keepIfLonelyLine`, plugin.js:490, which does set `hard: true` but is used
only by `splitTextToDocs` for non-empty text.) -/
theorem blank_line_text_is_not_forced :
    printNodeF 9 {} [] (.text "\n\n" "\n\n" 0 2) false
      = (.ok (.line .normal true), false) ∧
    isForcedLineDoc (.line .normal true) = false ∧
    containsForcedBreakF 9 (.line .normal true) = false ∧
    isForcedLineDoc keepIfLonelyLineD = true :=
  ⟨rfl, rfl, rfl, rfl⟩

/-- **C8, amended.**  A whitespace-only text node between siblings prints
as a *normal* line doc (a space when flat, a break when broken — not a
soft line and not a hard one); its `keepIfLonely` flag — which exempts it
from the lonely-line discarding — is set iff the original text contains a
line feed followed, after optional whitespace, by another line feed (the
`/\n\r?\s*\n\r?/` test). -/
theorem whitespace_text_line_keep_if_lonely :
    (∀ (f : Nat) (ctx : Ctx) (stack : List Node) (raw dat : String) (s en : Nat)
      (ign : Bool),
      isEmptyNode (.text raw dat s en) = true →
      isPreStack (.text raw dat s en :: stack) = false →
      printNodeF (f + 1) ctx stack (.text raw dat s en) ign
        = (.ok (.line .normal (hasDoubleNl (rawOrData (.text raw dat s en)).toList)),
           ign)) ∧
    (∀ keep, isLineDiscardedIfLonely (.line .normal keep) = !keep) ∧
    isForcedLineDoc (.line .normal true) = false := by
  refine ⟨?_, ?_, rfl⟩
  · intro f ctx stack raw dat s en ign he hp
    simp only [printNodeF]
    simp [he, hp, consumesIgnore, isTextN]
  · intro keep
    rfl

/-- Witness for the amended C8: `"\n\n"` (blank line: keep-if-lonely) and
`" "` (plain space: discardable). -/
theorem whitespace_text_line_keep_if_lonely_witness :
    printNodeF 9 {} [] (.text "\n\n" "\n\n" 0 2) false = (.ok (.line .normal true), false) ∧
    printNodeF 9 {} [] (.text " " " " 0 1) false = (.ok (.line .normal false), false) ∧
    isLineDiscardedIfLonely (.line .normal true) = !true :=
  ⟨whitespace_text_line_keep_if_lonely.1 8 {} [] "\n\n" "\n\n" 0 2 false rfl rfl,
   whitespace_text_line_keep_if_lonely.1 8 {} [] " " " " 0 1 false rfl rfl,
   whitespace_text_line_keep_if_lonely.2.1 true⟩

/-! ### C9 — scoping of the suppress-next-node flag -/

/-- An await block whose pending branch holds an ignore comment (followed
by a whitespace-only sibling, so the flag stays set) and whose `then`
value is a pattern kind `expandNode` has no case for: printing it sets the
flag and then throws, leaving the flag set. -/
def c9AwaitNode : Node :=
  .awaitBlock (.ident "p") (some (.unknown "MemberExpression")) none
    (.pendingBlock [.comment " prettier-ignore " 10 34, .text "\n" "\n" 34 35] 10 35)
    (.thenBlock [.text "y" "y" 42 43] 42 43) (.catchBlock [] 45 45) 0 53

def c9RootA : SvelteRoot := { html := .fragment [c9AwaitNode] 0 53 }

/-- A plain `<div />` document, used for the two follow-up invocations. -/
def c9CtxB : Ctx := { originalText := "<div />" }
def c9RootB : SvelteRoot :=
  { html := .fragment [.element .element "div" none [] [] 0 7] 0 7 }

/-- What the second invocation produces when the flag leaked in as `true`:
the whole markup fragment is suppressed to its raw source slice (no
forced break anywhere). -/
def c9LeakedDoc : Doc := .group (.concat [.concat [.text "<div />"]])

/-- What a clean invocation (flag `false`) produces: the normally printed
element, with hard breaks. -/
def c9CleanDoc : Doc :=
  .group (.concat [.concat [.concat [.breakParent,
    .group (.concat [.text "<", .text "div",
      .indent (.group (.concat [.text "", .text ""])), .text " ", .text "/>"])],
    hardlineD]])

/-- **C9.**  The suppress-next-node flag is a module-global cell that the
root case resets only *after* a successful print (plugin.js:534), never at
the start of an invocation: an invocation that sets the flag and then
throws (here: an ignore comment inside an await block's pending branch,
followed by an `expandNode` failure on the block's value pattern) ends
with the flag still `true`; a subsequent invocation started with that
leaked flag produces a different document than the same invocation started
fresh — its entire markup fragment is reproduced as a raw source slice. -/
theorem ignoreNext_leaks_after_failed_invocation :
    printRootF 30 {} c9RootA false
      = (.error (.unknownNodeType "MemberExpression"), true) ∧
    printRootF 30 c9CtxB c9RootB true = (.ok c9LeakedDoc, false) ∧
    printRootF 30 c9CtxB c9RootB false = (.ok c9CleanDoc, false) ∧
    containsForcedBreakF 50 c9LeakedDoc = false ∧
    containsForcedBreakF 50 c9CleanDoc = true :=
  ⟨rfl, rfl, rfl, rfl, rfl⟩

/-! ### C10 — empty fragments -/

/-- **C10.**  A `Fragment` node whose child list is empty or consists
entirely of whitespace-only text nodes prints as the empty string — no
output at all, not even a line break (plugin.js:551-554). -/
theorem empty_fragment_prints_empty_string :
    ∀ (f : Nat) (ctx : Ctx) (stack : List Node) (ch : List Node) (s en : Nat),
      ch.all isEmptyNode = true →
      printNodeF (f + 1) ctx stack (.fragment ch s en) false = (.ok (.text ""), false) := by
  intro f ctx stack ch s en h
  simp only [printNodeF]
  simp [h]

/-- Witness for C10: the empty fragment and a fragment holding only
whitespace text. -/
theorem empty_fragment_prints_empty_string_witness :
    printNodeF 9 {} [] (.fragment [] 0 0) false = (.ok (.text ""), false) ∧
    printNodeF 9 {} [] (.fragment [.text " \n " " \n " 0 3] 0 3) false
      = (.ok (.text ""), false) :=
  ⟨empty_fragment_prints_empty_string 8 {} [] [] 0 0 rfl,
   empty_fragment_prints_empty_string 8 {} [] [.text " \n " " \n " 0 3] 0 3 rfl⟩
